import Mathlib

/-!
Shallow embedding of the state-machine controller and resource helpers in
`src/data/tools.py`, the sun loop of `src/data/states/story.py`, and the
`get_event` overrides of the concrete state classes.  pygame-bound effects
(drawing, clock pacing, window caption text, the key/mouse snapshot arrays)
are external library calls with no influence on the control flow verified
here; each place they occur in the source is noted in the doc comment of the
definition that embeds the surrounding code.
-/

/-- Values carried in a state's `persist` dictionary (`tools.py` line 113).
The Python dict holds arbitrary values; an association list from string keys
to numeric payloads is enough to express the hand-off identities proved
below. -/
abbrev Persist := List (String × Nat)

/-- The fields every state owns, from `_State.__init__` (`tools.py` lines
107-113).  `start_time` is a `pg.time.get_ticks()` millisecond stamp. -/
structure StateData where
  start_time : Nat
  done : Bool
  quit : Bool
  next : Option String
  previous : Option String
  persist : Persist
  deriving DecidableEq

/-- `_State.startup` (`tools.py` lines 118-122): stores the handed-off
mapping in `self.persist` and restamps `start_time` with the current tick
count (`now` stands for the `pg.time.get_ticks()` reading).  Note that it
does not touch `done`. -/
def _State.startup (s : StateData) (persistant : Persist) (now : Nat) : StateData :=
  { s with persist := persistant, start_time := now }

/-- `_State.cleanup` (`tools.py` lines 123-127): resets `self.done` to
`False` and returns the persist mapping. -/
def _State.cleanup (s : StateData) : StateData × Persist :=
  ({ s with done := false }, s.persist)

/-- First-match lookup in an association list: the embedding of a Python
dict read `d[k]` (a miss is a `KeyError` at the call sites below). -/
def lookupSt : List (String × StateData) → String → Option StateData
  | [], _ => none
  | (k, v) :: rest, n => if k = n then some v else lookupSt rest n

/-- Replacement of the value stored under an existing key: the embedding of
mutating, through an alias, the state object a dict slot references.  A
missing key leaves the list unchanged (the controller only writes through
aliases obtained from successful reads). -/
def updateSt : List (String × StateData) → String → StateData → List (String × StateData)
  | [], _, _ => []
  | (k, v) :: rest, n, v' => if k = n then (k, v') :: rest else (k, v) :: updateSt rest n v'

/-- Lookup through an optional key: `state_name` and a state's `next` start
life as `None` (`tools.py` lines 49, 111), and `d[None]` misses. -/
def lookupStO (d : List (String × StateData)) : Option String → Option StateData
  | some n => lookupSt d n
  | none => none

/-- Write through an optional key; the `none` case never receives a write in
the code paths below because writes follow successful reads. -/
def updateStO (d : List (String × StateData)) : Option String → StateData → List (String × StateData)
  | some n, v => updateSt d n v
  | none, _ => d

/-- The controller fields that drive control flow (`Control.__init__`,
`tools.py` lines 39-50).  `screen`, `caption`, `Clock`, `fps`, `show_fps`
and the `keys`/`mouse` snapshots are pygame handles with no bearing on state
switching and are left out.  The Python attribute `self.State` aliases
`self.state_dict[self.state_name]` at every method boundary, so it is
recovered by the lookup `Control.State` below rather than stored twice; the
transient divergence inside `flip_state` is captured explicitly there. -/
structure Control where
  done : Bool
  state_dict : List (String × StateData)
  state_name : Option String
  deriving DecidableEq

/-- The current state reference `self.State`. -/
def Control.State (c : Control) : Option StateData :=
  lookupStO c.state_dict c.state_name

/-- `Control.setup_states` (`tools.py` lines 51-56).  The final line reads
`self.state_dict[self.state_name]`, so a missing start key is a `KeyError`,
modelled as `none`. -/
def Control.setup_states (c : Control) (state_dict : List (String × StateData))
    (start_state : String) : Option Control :=
  match lookupSt state_dict start_state with
  | some _ => some { c with state_dict := state_dict, state_name := some start_state }
  | none => none

/-- Observable calls the controller makes during a frame, in program order:
`cleanupEv n p` records `cleanup()` on state `n` returning mapping `p`;
`startupEv n p b` records `startup(p)` on state `n`, with `b` the state's
`done` flag immediately after that call returns; `updateEv n` records
`update(...)` dispatched to state `n`; `getEventEv n` records
`get_event(event)` dispatched to state `n`; `keyErrorEv k` records the
`KeyError` raised by evaluating `self.state_dict[k]`. -/
inductive Ev where
  | cleanupEv (name : Option String) (returned : Persist)
  | startupEv (name : Option String) (arg : Persist) (doneAfter : Bool)
  | updateEv (name : Option String)
  | getEventEv (name : Option String)
  | keyErrorEv (missing : Option String)
  deriving DecidableEq

/-- Outcome of a controller step: a normal return, or a propagating
`KeyError` carrying the mutations that had already been performed when the
error was raised. -/
inductive StepResult where
  | ok (c : Control)
  | err (missing : Option String) (c : Control)
  deriving DecidableEq

/-- `Control.flip_state` (`tools.py` lines 65-72), line by line:
`previous,self.state_name = self.state_name,self.State.next`;
`persist = self.State.cleanup()` — on the OLD state, still aliased by
`self.State`, so the write lands at the old key; `self.State =
self.state_dict[self.state_name]` — a `KeyError` when the key is absent,
raised after the two mutations above already happened; then
`self.State.startup(persist)` and `self.State.previous = previous`.  The
initial `none` case stands for a call with no valid current state, where
`self.State.next` would already fail. -/
def Control.flip_state (c : Control) (now : Nat) : List Ev × StepResult :=
  match Control.State c with
  | none => ([], StepResult.err c.state_name c)
  | some oldS =>
    let previous := c.state_name
    let name1 := oldS.next
    let cleaned := _State.cleanup oldS
    let dict1 := updateStO c.state_dict previous cleaned.1
    let c1 : Control := { c with state_dict := dict1, state_name := name1 }
    match lookupStO dict1 name1 with
    | none =>
      ([Ev.cleanupEv previous cleaned.2, Ev.keyErrorEv name1], StepResult.err name1 c1)
    | some newS =>
      let newS2 := { _State.startup newS cleaned.2 now with previous := previous }
      ([Ev.cleanupEv previous cleaned.2, Ev.startupEv name1 cleaned.2 newS2.done],
        StepResult.ok { c1 with state_dict := updateStO dict1 name1 newS2 })

/-- `Control.update` (`tools.py` lines 57-64).  `upd` stands for the current
state's overridden `update(self,Surf,keys,mouse)` body restricted to its
effect on that state's own fields: the overrides in `story.py` and
`survive.py` draw to the surface (an external effect) and mutate only their
own attributes.  Note the source calls `self.State.update(...)` on the last
line unconditionally, in the quit branch as well. -/
def Control.update (upd : Option String → StateData → StateData) (c : Control) (now : Nat) :
    List Ev × StepResult :=
  match Control.State c with
  | none => ([], StepResult.err c.state_name c)
  | some s =>
    if s.quit then
      let c1 : Control := { c with done := true }
      ([Ev.updateEv c1.state_name],
        StepResult.ok
          { c1 with state_dict := updateStO c1.state_dict c1.state_name (upd c1.state_name s) })
    else if s.done then
      match Control.flip_state c now with
      | (tr, StepResult.ok c1) =>
        match Control.State c1 with
        | none => (tr, StepResult.err c1.state_name c1)
        | some s2 =>
          (tr ++ [Ev.updateEv c1.state_name],
            StepResult.ok
              { c1 with
                state_dict := updateStO c1.state_dict c1.state_name (upd c1.state_name s2) })
      | (tr, StepResult.err m c1) => (tr, StepResult.err m c1)
    else
      ([Ev.updateEv c.state_name],
        StepResult.ok
          { c with state_dict := updateStO c.state_dict c.state_name (upd c.state_name s) })

/-- The pygame event types `Control.event_loop` branches on
(`tools.py` lines 76-84); `OTHER` stands for every remaining type. -/
inductive PyEventType where
  | QUIT
  | KEYDOWN
  | KEYUP
  | MOUSEBUTTONDOWN
  | MOUSEBUTTONUP
  | OTHER
  deriving DecidableEq

/-- `Control.event_loop` (`tools.py` lines 73-84).  Every drained event is
forwarded to the current state's `get_event`; a `QUIT` event additionally
sets `self.done`.  The `KEYDOWN`/`KEYUP` branch refreshes `self.keys` and
calls `toggle_show_fps`, and the mouse branch refreshes `self.mouse`: those
touch only the pygame input snapshot and the window caption, outside this
embedding.  `gev` stands for the dispatched `get_event` override's effect on
the state's own fields (the overrides in `story.py` and `survive.py` mutate
only their own attributes).  `dispatch_one` is the body of the `for` loop
for a single drained event; `event_loop` folds it over the drained list
while recording each `get_event` dispatch. -/
def Control.dispatch_one (gev : Option String → PyEventType → StateData → StateData)
    (c : Control) (event : PyEventType) : Control :=
  let c1 := if event = PyEventType.QUIT then { c with done := true } else c
  match Control.State c1 with
  | some s =>
    { c1 with state_dict := updateStO c1.state_dict c1.state_name (gev c1.state_name event s) }
  | none => c1

def Control.event_loop (gev : Option String → PyEventType → StateData → StateData)
    (c : Control) : List PyEventType → List Ev × Control
  | [] => ([], c)
  | event :: rest =>
    (Ev.getEventEv c.state_name ::
        (Control.event_loop gev (Control.dispatch_one gev c event) rest).1,
      (Control.event_loop gev (Control.dispatch_one gev c event) rest).2)

/-- One iteration of the body of `Control.main` (`tools.py` lines 93-100):
`self.event_loop()` then `self.update()`.  The trailing
`pg.display.update()`, `self.Clock.tick(self.fps)` and the FPS caption are
pygame-side effects.  `events` is the list `pg.event.get()` drains this
iteration and `now` the tick value a `startup` call would observe. -/
def Control.frame (gev : Option String → PyEventType → StateData → StateData)
    (upd : Option String → StateData → StateData) (c : Control)
    (events : List PyEventType) (now : Nat) : List Ev × StepResult :=
  ((Control.event_loop gev c events).1 ++
      (Control.update upd (Control.event_loop gev c events).2 now).1,
    (Control.update upd (Control.event_loop gev c events).2 now).2)

/-- `Control.main` (`tools.py` lines 91-100): `while not self.done` runs
frame bodies until `done` holds or a `KeyError` escapes.  The run is driven
by the scripted per-frame inputs `frames` — the event list drained and the
tick value of each iteration; the script running out ends the recursion. -/
def Control.main (gev : Option String → PyEventType → StateData → StateData)
    (upd : Option String → StateData → StateData) (c : Control) :
    List (List PyEventType × Nat) → List Ev × StepResult
  | [] => ([], StepResult.ok c)
  | (events, now) :: rest =>
    if c.done then ([], StepResult.ok c)
    else
      match Control.frame gev upd c events now with
      | (tr, StepResult.ok c1) =>
        (tr ++ (Control.main gev upd c1 rest).1, (Control.main gev upd c1 rest).2)
      | (tr, StepResult.err m c1) => (tr, StepResult.err m c1)

/-- The dot an `os.path.splitext` split happens at: scanning left to right,
the last '.' preceded somewhere by a non-dot character (leading dots of a
flat filename never begin an extension).  `i` is the index of the head of
the remaining list, `seen` whether a non-dot character occurred already, and
`best` the split position found so far. -/
def extDotIdxAux : List Char → Nat → Bool → Option Nat → Option Nat
  | [], _, _, best => best
  | ch :: rest, i, seen, best =>
    if ch = '.' then extDotIdxAux rest (i + 1) seen (if seen then some i else best)
    else extDotIdxAux rest (i + 1) true best

/-- `os.path.splitext` on a flat filename (`tools.py` line 140 receives bare
directory entries, never paths with separators). -/
def splitext (p : String) : String × String :=
  match extDotIdxAux p.toList 0 false none with
  | some i => (String.mk (p.toList.take i), String.mk (p.toList.drop i))
  | none => (p, "")

/-- Python's `str.lower` restricted to what extensions contain. -/
def strLower (s : String) : String :=
  String.mk (s.toList.map Char.toLower)

/-- A surface `pg.image.load` produced, abstracted to the only attribute the
loader inspects — `img.get_alpha()` — plus an identifying payload standing
for the pixel contents. -/
structure Img where
  hasAlpha : Bool
  payload : Nat
  deriving DecidableEq

/-- The two conversions `load_all_gfx` can apply to a loaded image:
`img.convert_alpha()`, or `img.convert()` followed by
`img.set_colorkey(colorkey)`. -/
inductive LoadedImg where
  | alphaConverted (img : Img)
  | colorkeyConverted (img : Img) (colorkey : Nat × Nat × Nat)
  deriving DecidableEq

/-- Python dict assignment `d[k] = v`: replace in place, else append. -/
def dictSet : List (String × LoadedImg) → String → LoadedImg → List (String × LoadedImg)
  | [], k, v => [(k, v)]
  | (k', v') :: rest, k, v => if k' = k then (k', v) :: rest else (k', v') :: dictSet rest k v

/-- Python dict read `d.get(k)` over the graphics mapping. -/
def dictGet : List (String × LoadedImg) → String → Option LoadedImg
  | [], _ => none
  | (k', v') :: rest, k => if k' = k then some v' else dictGet rest k

/-- The conversion the loader applies to one accepted image
(`tools.py` lines 143-147). -/
def convertImg (img : Img) (colorkey : Nat × Nat × Nat) : LoadedImg :=
  if img.hasAlpha then LoadedImg.alphaConverted img else LoadedImg.colorkeyConverted img colorkey

/-- The loop body of `load_all_gfx` (`tools.py` lines 139-148): walk the
directory listing in order, and for every entry whose lowercased extension
is accepted, store the converted image under the extension-stripped name. -/
def load_all_gfxAux (colorkey : Nat × Nat × Nat) (accept : List String) :
    List (String × Img) → List (String × LoadedImg) → List (String × LoadedImg)
  | [], graphics => graphics
  | entry :: rest, graphics =>
    if strLower (splitext entry.1).2 ∈ accept then
      load_all_gfxAux colorkey accept rest
        (dictSet graphics (splitext entry.1).1 (convertImg entry.2 colorkey))
    else load_all_gfxAux colorkey accept rest graphics

/-- `load_all_gfx` (`tools.py` lines 133-149) over a directory listing of
filenames paired with the image `pg.image.load` yields for each. -/
def load_all_gfx (listing : List (String × Img)) (colorkey : Nat × Nat × Nat)
    (accept : List String) : List (String × LoadedImg) :=
  load_all_gfxAux colorkey accept listing []

/-- The image of the last listing entry that passes the extension filter
with the given base name; Python dict writes happen in listing order, so the
last such write is the one visible in the returned mapping. -/
def lastAccepted (accept : List String) (name : String) : List (String × Img) → Option Img
  | [] => none
  | entry :: rest =>
    match lastAccepted accept name rest with
    | some img => some img
    | none =>
      if (splitext entry.1).1 = name ∧ strLower (splitext entry.1).2 ∈ accept then some entry.2
      else none

/-- A falling sun sprite, abstracted to what `Story.sun_updates` inspects:
whether `obj.image_rect.collidepoint(pg.mouse.get_pos())` holds, what
`obj.mask.get_at(offset)` returns at the computed offset, and an identifying
payload standing for all remaining sprite state. -/
structure Sun where
  collide : Bool
  maskAt : Bool
  payload : Nat
  deriving DecidableEq

/-- The combined guards under which the loop in `story.py` lines 30-36
removes a sun; `pressed0` is `pg.mouse.get_pressed()[0]`, read twice by the
source. -/
def sunClicked (pressed0 : Bool) (o : Sun) : Bool :=
  o.collide && pressed0 && (!o.maskAt && pressed0)

/-- `Story.sun_updates` (`story.py` lines 28-38) restricted to its effect on
`self.suns`.  The loop walks a copy of the list; on the first sun whose
guards all hold it removes that sun from the live list and breaks.  Every
sun the loop reaches without removing is blitted — an external drawing
effect — right after the bare attribute access `obj.update`, which lacks
call parentheses and therefore never invokes the method, leaving the sun
unchanged. -/
def sun_updates (pressed0 : Bool) : List Sun → List Sun
  | [] => []
  | obj :: rest =>
    if obj.collide && pressed0 then
      if !obj.maskAt then
        if pressed0 then rest
        else obj :: sun_updates pressed0 rest
      else obj :: sun_updates pressed0 rest
    else obj :: sun_updates pressed0 rest

/-- Declared positional parameter count, `self` excluded, of a Python
method; none of the `get_event` definitions declare defaults. -/
structure PyMethod where
  params : Nat
  deriving DecidableEq

/-- Outcome of a Python positional call: CPython raises `TypeError` when the
supplied argument count differs from the declared parameter count. -/
inductive PyCallResult where
  | ok
  | typeErr
  deriving DecidableEq

/-- Dispatch of a Python method call by arity. -/
def pyCall (m : PyMethod) (argc : Nat) : PyCallResult :=
  if m.params = argc then PyCallResult.ok else PyCallResult.typeErr

/-- `_State.get_event(self,event,keys,mouse)` (`tools.py` line 114). -/
def _State.get_event_method : PyMethod := ⟨3⟩

/-- `Story.get_event(self,event)` (`story.py` line 51). -/
def Story.get_event_method : PyMethod := ⟨1⟩

/-- `Survive.get_event(self,event)` (`survive.py` line 35). -/
def Survive.get_event_method : PyMethod := ⟨1⟩

/-- The dispatch `self.State.get_event(event)` (`tools.py` line 84) passes
exactly one positional argument. -/
def Control.event_loop_get_event_argc : Nat := 1

/-- Fresh state fields exactly as `_State.__init__` leaves them when the
constructor runs at tick `t0`. -/
def initState (t0 : Nat) : StateData :=
  { start_time := t0, done := false, quit := false, next := none, previous := none, persist := [] }

/-- A `get_event` override that requests termination on any key press: the
premise of the quit scenario (no state shipped in the repository sets
`quit`, so the scenario's state is synthesized faithfully to its wording). -/
def gevQuit : Option String → PyEventType → StateData → StateData :=
  fun _ e s => if e = PyEventType.KEYDOWN then { s with quit := true } else s

/-- An `update` override with no effect on the state's own fields. -/
def updId : Option String → StateData → StateData :=
  fun _ s => s

/-- A controller with the single fresh state `"A"` current. -/
def cA : Control :=
  { done := false, state_dict := [("A", initState 0)], state_name := some "A" }

/-- A state that has requested the transition `A → B` and carries a persist
payload. -/
def sA1 : StateData :=
  { start_time := 0, done := true, quit := false, next := some "B", previous := none,
    persist := [("score", 3)] }

/-- A two-state controller: `"A"` current and done, `"B"` registered. -/
def cAB : Control :=
  { done := false, state_dict := [("A", sA1), ("B", initState 0)], state_name := some "A" }

/-- The trace `flip_state` produces from `cAB` at tick 9. -/
def trAB : List Ev :=
  [Ev.cleanupEv (some "A") [("score", 3)], Ev.startupEv (some "B") [("score", 3)] false]

/-- The state fields of `"B"` right after the `cAB` transition at tick 9. -/
def sBafter : StateData :=
  { start_time := 9, done := false, quit := false, next := none, previous := some "A",
    persist := [("score", 3)] }

/-- The controller `flip_state` returns from `cAB` at tick 9. -/
def cABafter : Control :=
  { done := false,
    state_dict := [("A", { sA1 with done := false }), ("B", sBafter)],
    state_name := some "B" }

/-- The `get_event` override shared by `Story` (`story.py` lines 51-56) and
`Survive` (`survive.py` lines 35-40): any `KEYDOWN` sets `next = "MENU"` and
`done = True`. -/
def storyGetEvent : Option String → PyEventType → StateData → StateData :=
  fun _ e s =>
    if e = PyEventType.KEYDOWN then { s with next := some "MENU", done := true } else s

/-- `Story`'s controller-relevant fields after construction at tick 0, once
a key press has set its transition request to the unregistered name
`"MENU"`. -/
def stStory : StateData :=
  { start_time := 0, done := true, quit := false, next := some "MENU", previous := none,
    persist := [] }

/-- A controller whose only registered state is `"STORY"`, which requests a
transition to the missing key `"MENU"`. -/
def cStory : Control :=
  { done := false, state_dict := [("STORY", stStory)], state_name := some "STORY" }

theorem lookupSt_updateSt_self (d : List (String × StateData)) (n : String) (v : StateData)
    (h : (lookupSt d n).isSome) : lookupSt (updateSt d n v) n = some v := by
  induction d with
  | nil => simp [lookupSt] at h
  | cons p rest ih =>
    obtain ⟨k, w⟩ := p
    by_cases hk : k = n
    · simp [lookupSt, updateSt, hk]
    · simp only [lookupSt, updateSt, if_neg hk] at h ⊢
      exact ih h

theorem lookupSt_updateSt_ne (d : List (String × StateData)) (n m : String) (v : StateData)
    (h : m ≠ n) : lookupSt (updateSt d n v) m = lookupSt d m := by
  induction d with
  | nil => rfl
  | cons p rest ih =>
    obtain ⟨k, w⟩ := p
    by_cases hk : k = n
    · subst hk
      have hkm : ¬(k = m) := fun hkm => h hkm.symm
      simp [lookupSt, updateSt, hkm]
    · simp only [updateSt, if_neg hk, lookupSt]
      by_cases hkm : k = m
      · simp [hkm]
      · simp [hkm, ih]

theorem updateSt_of_missing (d : List (String × StateData)) (n : String) (v : StateData)
    (h : lookupSt d n = none) : updateSt d n v = d := by
  induction d with
  | nil => rfl
  | cons p rest ih =>
    obtain ⟨k, w⟩ := p
    by_cases hk : k = n
    · simp [lookupSt, hk] at h
    · simp only [lookupSt, if_neg hk] at h
      simp [updateSt, hk, ih h]

theorem lookupSt_updateSt_none (d : List (String × StateData)) (n m : String) (v : StateData)
    (h : lookupSt d m = none) : lookupSt (updateSt d n v) m = none := by
  by_cases hmn : m = n
  · subst hmn
    rw [updateSt_of_missing d m v h]
    exact h
  · rw [lookupSt_updateSt_ne d n m v hmn]
    exact h

theorem lookupStO_updateStO_self (d : List (String × StateData)) (k : Option String)
    (v : StateData) (h : (lookupStO d k).isSome) : lookupStO (updateStO d k v) k = some v := by
  cases k with
  | none => simp [lookupStO] at h
  | some n => exact lookupSt_updateSt_self d n v h

theorem flip_ok_spec (c : Control) (now : Nat) (tr : List Ev) (c1 : Control)
    (h : Control.flip_state c now = (tr, StepResult.ok c1)) :
    ∃ oldS newS,
      Control.State c = some oldS ∧
      lookupStO (updateStO c.state_dict c.state_name { oldS with done := false }) oldS.next
        = some newS ∧
      tr = [Ev.cleanupEv c.state_name oldS.persist,
            Ev.startupEv oldS.next oldS.persist newS.done] ∧
      c1 = { done := c.done,
             state_dict :=
               updateStO (updateStO c.state_dict c.state_name { oldS with done := false })
                 oldS.next
                 { newS with start_time := now, previous := c.state_name,
                             persist := oldS.persist },
             state_name := oldS.next } := by
  unfold Control.flip_state at h
  split at h
  · simp at h
  · next oldS hS =>
    simp only [_State.cleanup, _State.startup] at h
    split at h
    · simp at h
    · next newS hL =>
      injection h with h1 h2
      injection h2 with h2
      exact ⟨oldS, newS, hS, hL, h1.symm, h2.symm⟩

theorem flip_ok_full (c : Control) (now : Nat) (tr : List Ev) (c1 : Control)
    (h : Control.flip_state c now = (tr, StepResult.ok c1)) :
    ∃ oldS newS,
      Control.State c = some oldS ∧
      lookupStO (updateStO c.state_dict c.state_name { oldS with done := false }) oldS.next
        = some newS ∧
      tr = [Ev.cleanupEv c.state_name oldS.persist,
            Ev.startupEv oldS.next oldS.persist newS.done] ∧
      c1.done = c.done ∧
      c1.state_name = oldS.next ∧
      c1.state_dict =
        updateStO (updateStO c.state_dict c.state_name { oldS with done := false })
          oldS.next
          { newS with start_time := now, previous := c.state_name, persist := oldS.persist } ∧
      Control.State c1 =
        some
          { newS with start_time := now, previous := c.state_name,
                      persist := oldS.persist } := by
  obtain ⟨oldS, newS, hS, hL, htr, hc1⟩ := flip_ok_spec c now tr c1 h
  subst hc1
  refine ⟨oldS, newS, hS, hL, htr, rfl, rfl, rfl, ?_⟩
  exact lookupStO_updateStO_self _ oldS.next _ (by rw [hL]; rfl)

/-- Dormant states are never marked done: every registered state other than
the current one has `done = false`.  Freshly constructed states satisfy it
(`_State.__init__` sets `done = False`) and `cleanup` restores it on the way
out of a state. -/
def NonCurrentDoneFalse (c : Control) : Prop :=
  ∀ n s, lookupSt c.state_dict n = some s → c.state_name ≠ some n → s.done = false

theorem ncdf_write_current (c : Control) (b : Bool) (v : StateData)
    (h : NonCurrentDoneFalse c) :
    NonCurrentDoneFalse
      { done := b, state_dict := updateStO c.state_dict c.state_name v,
        state_name := c.state_name } := by
  intro n s hl hne
  have hne' : c.state_name ≠ some n := hne
  cases hm : c.state_name with
  | none =>
    rw [hm] at hl
    exact h n s hl hne'
  | some m =>
    rw [hm] at hl
    have hnm : n ≠ m := fun hx => hne' (by rw [hm, hx])
    rw [show updateStO c.state_dict (some m) v = updateSt c.state_dict m v from rfl] at hl
    rw [lookupSt_updateSt_ne c.state_dict m n v hnm] at hl
    exact h n s hl hne'

theorem dispatch_one_state_name (gev : Option String → PyEventType → StateData → StateData)
    (c : Control) (e : PyEventType) :
    (Control.dispatch_one gev c e).state_name = c.state_name := by
  unfold Control.dispatch_one
  split
  · dsimp only
    split <;> rfl
  · dsimp only
    split <;> rfl

theorem ncdf_dispatch_one (gev : Option String → PyEventType → StateData → StateData)
    (c : Control) (e : PyEventType) (h : NonCurrentDoneFalse c) :
    NonCurrentDoneFalse (Control.dispatch_one gev c e) := by
  unfold Control.dispatch_one
  by_cases hq : e = PyEventType.QUIT
  · simp only [hq, if_pos rfl]
    split
    · next s hS =>
      exact ncdf_write_current { c with done := true } true _ (fun n t hl hne => h n t hl hne)
    · exact fun n t hl hne => h n t hl hne
  · simp only [if_neg hq]
    split
    · next s hS => exact ncdf_write_current c c.done _ h
    · exact h

theorem event_loop_state_name (gev : Option String → PyEventType → StateData → StateData)
    (events : List PyEventType) : ∀ c : Control,
    (Control.event_loop gev c events).2.state_name = c.state_name := by
  induction events with
  | nil => intro c; rfl
  | cons e rest ih =>
    intro c
    simp only [Control.event_loop]
    rw [ih (Control.dispatch_one gev c e), dispatch_one_state_name]

theorem ncdf_event_loop (gev : Option String → PyEventType → StateData → StateData)
    (events : List PyEventType) : ∀ c : Control, NonCurrentDoneFalse c →
    NonCurrentDoneFalse (Control.event_loop gev c events).2 := by
  induction events with
  | nil => intro c h; exact h
  | cons e rest ih =>
    intro c h
    simp only [Control.event_loop]
    exact ih (Control.dispatch_one gev c e) (ncdf_dispatch_one gev c e h)

theorem lookupStO_some (d : List (String × StateData)) (n : String) :
    lookupStO d (some n) = lookupSt d n := rfl

theorem lookupSt_updateStO_ne (d : List (String × StateData)) (k : Option String) (m : String)
    (v : StateData) (h : k ≠ some m) : lookupSt (updateStO d k v) m = lookupSt d m := by
  cases k with
  | none => rfl
  | some n => exact lookupSt_updateSt_ne d n m v (fun hm => h (by rw [hm]))

theorem lookupSt_updateStO_self (d : List (String × StateData)) (n : String) (v : StateData)
    (h : (lookupSt d n).isSome) : lookupSt (updateStO d (some n) v) n = some v :=
  lookupSt_updateSt_self d n v h

theorem ncdf_flip (c : Control) (now : Nat) (tr : List Ev) (c1 : Control)
    (hInv : NonCurrentDoneFalse c)
    (h : Control.flip_state c now = (tr, StepResult.ok c1)) :
    NonCurrentDoneFalse c1 := by
  obtain ⟨oldS, newS, hS, hL, htr, hdone, hname, hdict, hcur⟩ := flip_ok_full c now tr c1 h
  cases hm : c.state_name with
  | none => simp [Control.State, hm, lookupStO] at hS
  | some pk =>
    cases hx : oldS.next with
    | none => rw [hm, hx] at hL; simp [lookupStO] at hL
    | some nk =>
      intro n s hl hne
      rw [hdict, hm, hx] at hl
      rw [hname, hx] at hne
      have hnk : some nk ≠ some n := hne
      rw [lookupSt_updateStO_ne _ _ n _ hnk] at hl
      simp only [Control.State, hm, lookupStO] at hS
      by_cases hpk : n = pk
      · subst hpk
        rw [lookupSt_updateStO_self _ n _ (by rw [hS]; rfl)] at hl
        injection hl with hl
        subst hl
        rfl
      · rw [lookupSt_updateStO_ne _ _ n _ (fun hh => hpk (Option.some.inj hh).symm)] at hl
        exact hInv n s hl (by rw [hm]; exact fun hh => hpk (Option.some.inj hh).symm)

theorem flip_ok_done_false (c : Control) (now : Nat) (tr : List Ev) (c1 : Control)
    (s1 : StateData) (hInv : NonCurrentDoneFalse c)
    (h : Control.flip_state c now = (tr, StepResult.ok c1))
    (hS1 : Control.State c1 = some s1) : s1.done = false := by
  obtain ⟨oldS, newS, hS, hL, htr, hdone, hname, hdict, hcur⟩ := flip_ok_full c now tr c1 h
  rw [hcur] at hS1
  injection hS1 with hS1
  have hsd : s1.done = newS.done := by rw [← hS1]
  rw [hsd]
  cases hm : c.state_name with
  | none => simp [Control.State, hm, lookupStO] at hS
  | some pk =>
    cases hx : oldS.next with
    | none => rw [hm, hx] at hL; simp [lookupStO] at hL
    | some nk =>
      rw [hm, hx, lookupStO_some] at hL
      simp only [Control.State, hm, lookupStO] at hS
      by_cases hnp : nk = pk
      · subst hnp
        rw [lookupSt_updateStO_self _ nk _ (by rw [hS]; rfl)] at hL
        injection hL with hL
        rw [← hL]
      · rw [lookupSt_updateStO_ne _ _ nk _
            (fun hh => hnp (Option.some.inj hh).symm)] at hL
        exact hInv nk newS hL (by rw [hm]; exact fun hh => hnp (Option.some.inj hh).symm)

theorem ncdf_update (upd : Option String → StateData → StateData) (c : Control) (now : Nat)
    (tr : List Ev) (c1 : Control) (hInv : NonCurrentDoneFalse c)
    (h : Control.update upd c now = (tr, StepResult.ok c1)) : NonCurrentDoneFalse c1 := by
  unfold Control.update at h
  split at h
  · simp at h
  · next s hS =>
    dsimp only at h
    by_cases hq : s.quit = true
    · rw [if_pos hq] at h
      injection h with h1 h2
      injection h2 with h2
      subst h2
      exact ncdf_write_current { c with done := true } true _ (fun n t hl hne => hInv n t hl hne)
    · rw [if_neg hq] at h
      by_cases hd : s.done = true
      · rw [if_pos hd] at h
        rcases hf : Control.flip_state c now with ⟨ftr, fres⟩
        cases fres with
        | err m cm => simp only [hf] at h; simp at h
        | ok cm =>
          obtain ⟨oldS, newS, hS', hL', htr', hdone', hname', hdict', hcur'⟩ :=
            flip_ok_full c now ftr cm hf
          simp only [hf, hcur'] at h
          injection h with h1 h2
          injection h2 with h2
          subst h2
          exact ncdf_write_current cm cm.done _ (ncdf_flip c now ftr cm hInv hf)
      · rw [if_neg hd] at h
        injection h with h1 h2
        injection h2 with h2
        subst h2
        exact ncdf_write_current c c.done _ hInv

theorem ncdf_frame (gev : Option String → PyEventType → StateData → StateData)
    (upd : Option String → StateData → StateData) (c : Control) (events : List PyEventType)
    (now : Nat) (tr : List Ev) (c1 : Control) (hInv : NonCurrentDoneFalse c)
    (h : Control.frame gev upd c events now = (tr, StepResult.ok c1)) :
    NonCurrentDoneFalse c1 := by
  unfold Control.frame at h
  rcases hu : Control.update upd (Control.event_loop gev c events).2 now with ⟨utr, ur⟩
  rw [hu] at h
  injection h with h1 h2
  subst h2
  exact ncdf_update upd _ now utr c1 (ncdf_event_loop gev events c hInv) hu

theorem main_done (gev : Option String → PyEventType → StateData → StateData)
    (upd : Option String → StateData → StateData) (c : Control)
    (frames : List (List PyEventType × Nat)) (h : c.done = true) :
    Control.main gev upd c frames = ([], StepResult.ok c) := by
  cases frames with
  | nil => rfl
  | cons f rest =>
    obtain ⟨events, now⟩ := f
    simp [Control.main, h]

theorem ncdf_main (gev : Option String → PyEventType → StateData → StateData)
    (upd : Option String → StateData → StateData) :
    ∀ (frames : List (List PyEventType × Nat)) (c : Control) (tr : List Ev) (c1 : Control),
      NonCurrentDoneFalse c → Control.main gev upd c frames = (tr, StepResult.ok c1) →
      NonCurrentDoneFalse c1 := by
  intro frames
  induction frames with
  | nil =>
    intro c tr c1 hInv h
    unfold Control.main at h
    injection h with h1 h2
    injection h2 with h2
    subst h2
    exact hInv
  | cons f rest ih =>
    intro c tr c1 hInv h
    obtain ⟨events, now⟩ := f
    unfold Control.main at h
    by_cases hdn : c.done = true
    · rw [if_pos hdn] at h
      injection h with h1 h2
      injection h2 with h2
      subst h2
      exact hInv
    · rw [if_neg hdn] at h
      rcases hfr : Control.frame gev upd c events now with ⟨ftr, fres⟩
      cases fres with
      | err m cm => simp only [hfr] at h; simp at h
      | ok cm =>
        simp only [hfr] at h
        injection h with h1 h2
        rcases hm2 : Control.main gev upd cm rest with ⟨mtr, mres⟩
        rw [hm2] at h2
        cases mres with
        | err m2 cm2 => simp at h2
        | ok cm2 =>
          injection h2 with h2
          subst h2
          exact ih cm mtr cm2 (ncdf_frame gev upd c events now ftr cm hInv hfr) hm2

theorem lookupStO_updateStO_none (d : List (String × StateData)) (k k2 : Option String)
    (v : StateData) (h : lookupStO d k2 = none) : lookupStO (updateStO d k v) k2 = none := by
  cases k2 with
  | none => cases k <;> rfl
  | some m =>
    cases k with
    | none => exact h
    | some n => exact lookupSt_updateSt_none d n m v h

/-- C2 (amended): `startup(p)` stores `p` as the state's persist mapping
and resets `start_time` to the current tick, but it leaves `done` exactly
as it was — `done` is reset by `cleanup` when the state is left, not by
`startup`. -/
theorem c2_startup_stores_persist_and_time (s : StateData) (p : Persist) (now : Nat) :
    (_State.startup s p now).persist = p ∧ (_State.startup s p now).start_time = now ∧
      (_State.startup s p now).done = s.done :=
  ⟨rfl, rfl, rfl⟩

/-- C2 is false as stated: starting from a state whose `done` flag is
true, `done` is still true after `startup`, so `startup` does not reset the
`done` flag to false. -/
theorem c2_counterexample :
    ¬((_State.startup { initState 0 with done := true } [("score", 3)] 42).done = false) := by
  decide

/-- C3: when the current state's `next` names a key absent from the
controller's state mapping, `flip_state` raises a `KeyError` naming exactly
that missing key; the crash happens before any `startup` call and before
any write to a state other than the one being left, so no field of the
would-be-next state is ever touched (the claim's second disjunct). -/
theorem c3_missing_next_aborts (c : Control) (now : Nat) (s : StateData)
    (hS : Control.State c = some s)
    (hmiss : lookupStO c.state_dict s.next = none) :
    ∃ c1, Control.flip_state c now =
        ([Ev.cleanupEv c.state_name s.persist, Ev.keyErrorEv s.next],
          StepResult.err s.next c1) ∧
      (∀ n p b,
        Ev.startupEv n p b ∉ [Ev.cleanupEv c.state_name s.persist, Ev.keyErrorEv s.next]) ∧
      (∀ n, c.state_name ≠ some n → lookupSt c1.state_dict n = lookupSt c.state_dict n) ∧
      c1.state_name = s.next := by
  have hmiss1 :
      lookupStO (updateStO c.state_dict c.state_name { s with done := false }) s.next = none :=
    lookupStO_updateStO_none _ _ _ _ hmiss
  have hflip : Control.flip_state c now =
      ([Ev.cleanupEv c.state_name s.persist, Ev.keyErrorEv s.next],
        StepResult.err s.next
          { c with state_dict := updateStO c.state_dict c.state_name { s with done := false },
                   state_name := s.next }) := by
    unfold Control.flip_state
    rw [hS]
    dsimp only [_State.cleanup]
    rw [hmiss1]
  refine ⟨_, hflip, ?_, ?_, rfl⟩
  · intro n p b
    simp
  · intro n hne
    exact lookupSt_updateStO_ne _ _ n _ hne

/-- C4: in every completed transition, `cleanup()` on the outgoing state
executes strictly before `startup()` on the incoming state (the trace is
exactly the cleanup event followed by the startup event), and the mapping
`cleanup()` returned is identically the mapping passed to `startup()` —
both events carry the same `p`, which is the outgoing state's persist
mapping. -/
theorem c4_cleanup_before_startup_same_persist (c : Control) (now : Nat) (tr : List Ev)
    (c1 : Control) (h : Control.flip_state c now = (tr, StepResult.ok c1)) :
    ∃ p b, tr = [Ev.cleanupEv c.state_name p, Ev.startupEv c1.state_name p b] ∧
      ∃ s, Control.State c = some s ∧ p = s.persist := by
  obtain ⟨oldS, newS, hS, hL, htr, hdone, hname, hdict, hcur⟩ := flip_ok_full c now tr c1 h
  exact ⟨oldS.persist, newS.done, by rw [htr, hname], oldS, hS, rfl⟩

/-- C5: after any completed transition, the new current state's
`previous` field equals the name of the state that was current immediately
before the transition. -/
theorem c5_previous_is_old_name (c : Control) (now : Nat) (tr : List Ev) (c1 : Control)
    (s1 : StateData) (h : Control.flip_state c now = (tr, StepResult.ok c1))
    (hS1 : Control.State c1 = some s1) : s1.previous = c.state_name := by
  obtain ⟨oldS, newS, hS, hL, htr, hdone, hname, hdict, hcur⟩ := flip_ok_full c now tr c1 h
  rw [hcur] at hS1
  injection hS1 with hS1
  rw [← hS1]

/-- C6: starting from any controller in which every non-current state has
`done = false` (true of freshly constructed states), after any number of
frames, any transition — including one back into a state that had set
`done = true` and been left earlier — installs a current state whose `done`
flag is false: `cleanup` reset it on the way out and `startup` does not set
it. -/
theorem c6_reentry_done_false (gev : Option String → PyEventType → StateData → StateData)
    (upd : Option String → StateData → StateData) (c ca cb : Control)
    (frames : List (List PyEventType × Nat)) (tra trb : List Ev) (now : Nat) (s : StateData)
    (hInv : NonCurrentDoneFalse c)
    (hrun : Control.main gev upd c frames = (tra, StepResult.ok ca))
    (hflip : Control.flip_state ca now = (trb, StepResult.ok cb))
    (hcur : Control.State cb = some s) : s.done = false :=
  flip_ok_done_false ca now trb cb s (ncdf_main gev upd frames c tra ca hInv hrun) hflip hcur

/-- C7: every normally returning `Control.update` call dispatches exactly
one `update` — its trace is some prefix containing no update event, closed
by a single update event addressed to the post-step current state; when a
transition happened this frame that prefix is the cleanup/startup pair, so
neither the old state after its cleanup nor the new state before its
startup receives an update. -/
theorem c7_exactly_one_update_per_frame (upd : Option String → StateData → StateData)
    (c : Control) (now : Nat) (tr : List Ev) (c1 : Control)
    (h : Control.update upd c now = (tr, StepResult.ok c1)) :
    ∃ pre, tr = pre ++ [Ev.updateEv c1.state_name] ∧ (∀ n, Ev.updateEv n ∉ pre) := by
  unfold Control.update at h
  split at h
  · simp at h
  · next s hS =>
    dsimp only at h
    by_cases hq : s.quit = true
    · rw [if_pos hq] at h
      injection h with h1 h2
      injection h2 with h2
      subst h2
      exact ⟨[], by rw [← h1]; rfl, by intro n; simp⟩
    · rw [if_neg hq] at h
      by_cases hd : s.done = true
      · rw [if_pos hd] at h
        rcases hf : Control.flip_state c now with ⟨ftr, fres⟩
        cases fres with
        | err m cm => simp only [hf] at h; simp at h
        | ok cm =>
          obtain ⟨oldS, newS, hS', hL', htr', hdone', hname', hdict', hcur'⟩ :=
            flip_ok_full c now ftr cm hf
          simp only [hf, hcur'] at h
          injection h with h1 h2
          injection h2 with h2
          subst h2
          refine ⟨ftr, by rw [← h1], ?_⟩
          intro n
          rw [htr']
          simp
      · rw [if_neg hd] at h
        injection h with h1 h2
        injection h2 with h2
        subst h2
        exact ⟨[], by rw [← h1]; rfl, by intro n; simp⟩

/-- C1 (amended): when a state has set `quit = true` during a frame's event
dispatch, the controller sets its own `done` flag in that frame's update
phase and the main loop performs no further iteration — the run's whole
trace is that single frame's trace; however the claim's assertion that the
state's next `update` call never happens is false on the code:
`Control.update` invokes `self.State.update` unconditionally after setting
`done`, so exactly that update call ends the frame's trace. -/
theorem c1_quit_stops_loop_after_final_update
    (gev : Option String → PyEventType → StateData → StateData)
    (upd : Option String → StateData → StateData) (c : Control)
    (events : List PyEventType) (now : Nat) (rest : List (List PyEventType × Nat))
    (s : StateData) (hdone : c.done = false)
    (hS : Control.State (Control.event_loop gev c events).2 = some s)
    (hq : s.quit = true) :
    ∃ c1, Control.main gev upd c ((events, now) :: rest) =
        ((Control.event_loop gev c events).1 ++
            [Ev.updateEv (Control.event_loop gev c events).2.state_name],
          StepResult.ok c1) ∧
      c1.done = true := by
  have hu : Control.update upd (Control.event_loop gev c events).2 now =
      ([Ev.updateEv (Control.event_loop gev c events).2.state_name],
        StepResult.ok
          { done := true,
            state_dict :=
              updateStO (Control.event_loop gev c events).2.state_dict
                (Control.event_loop gev c events).2.state_name
                (upd (Control.event_loop gev c events).2.state_name s),
            state_name := (Control.event_loop gev c events).2.state_name }) := by
    unfold Control.update
    rw [hS]
    dsimp only
    rw [if_pos hq]
  refine
    ⟨{ done := true,
       state_dict :=
         updateStO (Control.event_loop gev c events).2.state_dict
           (Control.event_loop gev c events).2.state_name
           (upd (Control.event_loop gev c events).2.state_name s),
       state_name := (Control.event_loop gev c events).2.state_name }, ?_, rfl⟩
  simp only [Control.main, Control.frame, hu, hdone]
  rw [main_done gev upd _ rest rfl]
  simp

/-- C1 is false as stated: with a single registered state whose `get_event`
sets `quit` on `KEYDOWN`, the frame that observes `quit` still dispatches
`update` to that state — the update-call event for state `"A"` appears in
the run's trace even though the event dispatch set `quit = true`. -/
theorem c1_counterexample :
    Control.State (Control.event_loop gevQuit cA [PyEventType.KEYDOWN]).2 =
        some { initState 0 with quit := true } ∧
      Ev.updateEv (some "A") ∈
        (Control.main gevQuit updId cA [([PyEventType.KEYDOWN], 7)]).1 := by
  decide

/-- C1 witness: the amended statement evaluated on the concrete one-state
controller `cA` with a single `KEYDOWN` frame. -/
theorem c1_witness :
    ∃ c1, Control.main gevQuit updId cA [([PyEventType.KEYDOWN], 7)] =
        ((Control.event_loop gevQuit cA [PyEventType.KEYDOWN]).1 ++
            [Ev.updateEv (Control.event_loop gevQuit cA [PyEventType.KEYDOWN]).2.state_name],
          StepResult.ok c1) ∧
      c1.done = true :=
  c1_quit_stops_loop_after_final_update gevQuit updId cA [PyEventType.KEYDOWN] 7 []
    { initState 0 with quit := true } rfl (by decide) rfl

/-- C3 witness: the concrete controller whose only state `"STORY"`
requests the unregistered transition target `"MENU"` — exactly what
`story.py` does when no `"MENU"` state is registered. -/
theorem c3_witness :
    ∃ c1, Control.flip_state cStory 5 =
        ([Ev.cleanupEv cStory.state_name stStory.persist, Ev.keyErrorEv stStory.next],
          StepResult.err stStory.next c1) ∧
      (∀ n p b,
        Ev.startupEv n p b ∉
          [Ev.cleanupEv cStory.state_name stStory.persist, Ev.keyErrorEv stStory.next]) ∧
      (∀ n, cStory.state_name ≠ some n →
        lookupSt c1.state_dict n = lookupSt cStory.state_dict n) ∧
      c1.state_name = stStory.next :=
  c3_missing_next_aborts cStory 5 stStory rfl rfl

/-- C4 witness: the theorem evaluated on the concrete transition from
`"A"` to `"B"` of the two-state controller `cAB`. -/
theorem c4_witness :
    ∃ p b, trAB = [Ev.cleanupEv cAB.state_name p, Ev.startupEv cABafter.state_name p b] ∧
      ∃ s, Control.State cAB = some s ∧ p = s.persist :=
  c4_cleanup_before_startup_same_persist cAB 9 trAB cABafter (by decide)

/-- C5 witness: the theorem evaluated on the concrete transition from
`"A"` to `"B"` of the two-state controller `cAB`. -/
theorem c5_witness : sBafter.previous = cAB.state_name :=
  c5_previous_is_old_name cAB 9 trAB cABafter sBafter (by decide) (by decide)

theorem cAB_ncdf : NonCurrentDoneFalse cAB := by
  intro n s hl hne
  by_cases hA : "A" = n
  · exact absurd (hA ▸ (rfl : cAB.state_name = some "A")) hne
  · by_cases hB : "B" = n
    · rw [show lookupSt cAB.state_dict n = some (initState 0) from by
        simp [cAB, lookupSt, hA, hB]] at hl
      injection hl with hl
      subst hl
      rfl
    · rw [show lookupSt cAB.state_dict n = none from by
        simp [cAB, lookupSt, hA, hB]] at hl
      cases hl

/-- C6 witness: the theorem evaluated on the concrete controller `cAB`,
whose current state `"A"` is done, transitioning into `"B"`. -/
theorem c6_witness : sBafter.done = false :=
  c6_reentry_done_false gevQuit updId cAB cAB cABafter [] [] trAB 9 sBafter cAB_ncdf rfl
    (by decide) (by decide)

/-- C7 witness: the theorem evaluated on the one-state controller `cA` in
a plain frame with no transition. -/
theorem c7_witness :
    ∃ pre, ([Ev.updateEv (some "A")] : List Ev) = pre ++ [Ev.updateEv cA.state_name] ∧
      (∀ n, Ev.updateEv n ∉ pre) :=
  c7_exactly_one_update_per_frame updId cA 3 [Ev.updateEv (some "A")] cA (by decide)

theorem dictGet_dictSet (d : List (String × LoadedImg)) (k : String) (v : LoadedImg)
    (m : String) : dictGet (dictSet d k v) m = if k = m then some v else dictGet d m := by
  induction d with
  | nil => rfl
  | cons p rest ih =>
    obtain ⟨k1, v1⟩ := p
    by_cases h1 : k1 = k
    · subst h1
      by_cases h2 : k1 = m <;> simp [dictSet, dictGet, h2]
    · by_cases h2 : k1 = m
      · subst h2
        have h3 : ¬(k = k1) := fun hx => h1 hx.symm
        simp [dictSet, dictGet, h1, h3]
      · simp [dictSet, dictGet, h1, h2, ih]

theorem load_all_gfxAux_lookup (colorkey : Nat × Nat × Nat) (accept : List String) :
    ∀ (listing : List (String × Img)) (graphics : List (String × LoadedImg)) (name : String),
      dictGet (load_all_gfxAux colorkey accept listing graphics) name =
        match lastAccepted accept name listing with
        | some img => some (convertImg img colorkey)
        | none => dictGet graphics name := by
  intro listing
  induction listing with
  | nil => intro g n; rfl
  | cons entry rest ih =>
    intro g n
    by_cases hacc : strLower (splitext entry.1).2 ∈ accept
    · rw [show load_all_gfxAux colorkey accept (entry :: rest) g =
          load_all_gfxAux colorkey accept rest
            (dictSet g (splitext entry.1).1 (convertImg entry.2 colorkey)) from by
        simp [load_all_gfxAux, hacc]]
      rw [ih]
      cases hl : lastAccepted accept n rest with
      | some img => simp only [lastAccepted, hl]
      | none =>
        simp only [lastAccepted, hl]
        rw [dictGet_dictSet]
        by_cases hb : (splitext entry.1).1 = n
        · rw [if_pos hb, if_pos ⟨hb, hacc⟩]
        · rw [if_neg hb, if_neg (fun hx : _ ∧ _ => hb hx.1)]
    · rw [show load_all_gfxAux colorkey accept (entry :: rest) g =
          load_all_gfxAux colorkey accept rest g from by simp [load_all_gfxAux, hacc]]
      rw [ih]
      cases hl : lastAccepted accept n rest with
      | some img => simp only [lastAccepted, hl]
      | none =>
        simp only [lastAccepted, hl]
        rw [if_neg (fun hx : _ ∧ _ => hacc hx.2)]

theorem lastAccepted_mem (accept : List String) (name : String) :
    ∀ (listing : List (String × Img)) (img : Img),
      lastAccepted accept name listing = some img →
      ∃ pic, (pic, img) ∈ listing ∧ (splitext pic).1 = name ∧
        strLower (splitext pic).2 ∈ accept := by
  intro listing
  induction listing with
  | nil => intro img h; cases h
  | cons entry rest ih =>
    intro img h
    cases hl : lastAccepted accept name rest with
    | some i =>
      simp only [lastAccepted, hl] at h
      injection h with h
      subst h
      obtain ⟨pic, hmem, hbase, hext⟩ := ih i hl
      exact ⟨pic, List.mem_cons_of_mem _ hmem, hbase, hext⟩
    | none =>
      simp only [lastAccepted, hl] at h
      by_cases hcond : (splitext entry.1).1 = name ∧ strLower (splitext entry.1).2 ∈ accept
      · rw [if_pos hcond] at h
        injection h with h
        subst h
        exact ⟨entry.1, List.mem_cons_self _ _, hcond.1, hcond.2⟩
      · rw [if_neg hcond] at h
        cases h

theorem lastAccepted_isSome (accept : List String) (name : String) :
    ∀ listing : List (String × Img),
      (∃ pic img, (pic, img) ∈ listing ∧ (splitext pic).1 = name ∧
        strLower (splitext pic).2 ∈ accept) →
      ∃ img, lastAccepted accept name listing = some img := by
  intro listing
  induction listing with
  | nil =>
    rintro ⟨pic, img, hmem, hrest⟩
    cases hmem
  | cons entry rest ih =>
    rintro ⟨pic, img, hmem, hbase, hext⟩
    cases hl : lastAccepted accept name rest with
    | some i => exact ⟨i, by simp only [lastAccepted, hl]⟩
    | none =>
      rcases List.mem_cons.mp hmem with heq | hmem2
      · subst heq
        refine ⟨img, ?_⟩
        simp only [lastAccepted, hl]
        rw [if_pos ⟨hbase, hext⟩]
      · obtain ⟨i, hi⟩ := ih ⟨pic, img, hmem2, hbase, hext⟩
        rw [hl] at hi
        cases hi

/-- C8: `load_all_gfx` returns a mapping whose keys are exactly the
extension-stripped base names of the listing entries whose lowercased
extension is in the accept set; every stored entry is the conversion of an
accepted image with that base name — `convert_alpha` when the image has
alpha, `convert` plus the colorkey otherwise; and on the spec's concrete
scenario (opaque `foo.png`, alpha `bar.png`, accept `[".png"]`) the result
is exactly the two keys `foo` (colorkey-converted) and `bar`
(alpha-converted). -/
theorem c8_load_all_gfx_spec (listing : List (String × Img)) (colorkey : Nat × Nat × Nat)
    (accept : List String) :
    (∀ name : String,
      (∃ l, dictGet (load_all_gfx listing colorkey accept) name = some l) ↔
        ∃ pic img, (pic, img) ∈ listing ∧ (splitext pic).1 = name ∧
          strLower (splitext pic).2 ∈ accept) ∧
    (∀ name l, dictGet (load_all_gfx listing colorkey accept) name = some l →
      ∃ pic img, (pic, img) ∈ listing ∧ (splitext pic).1 = name ∧
        strLower (splitext pic).2 ∈ accept ∧ l = convertImg img colorkey) ∧
    load_all_gfx [("foo.png", ⟨false, 0⟩), ("bar.png", ⟨true, 1⟩)] (255, 0, 255) [".png"] =
      [("foo", LoadedImg.colorkeyConverted ⟨false, 0⟩ (255, 0, 255)),
       ("bar", LoadedImg.alphaConverted ⟨true, 1⟩)] := by
  refine ⟨?_, ?_, by decide⟩
  · intro name
    constructor
    · rintro ⟨l, hl⟩
      simp only [load_all_gfx, load_all_gfxAux_lookup] at hl
      cases hla : lastAccepted accept name listing with
      | none =>
        simp only [hla] at hl
        simp [dictGet] at hl
      | some img =>
        obtain ⟨pic, hmem, hbase, hext⟩ := lastAccepted_mem accept name listing img hla
        exact ⟨pic, img, hmem, hbase, hext⟩
    · intro hex
      obtain ⟨img, hla⟩ := lastAccepted_isSome accept name listing hex
      refine ⟨convertImg img colorkey, ?_⟩
      simp only [load_all_gfx, load_all_gfxAux_lookup, hla]
  · intro name l hl
    simp only [load_all_gfx, load_all_gfxAux_lookup] at hl
    cases hla : lastAccepted accept name listing with
    | none =>
      simp only [hla] at hl
      simp [dictGet] at hl
    | some img =>
      simp only [hla] at hl
      obtain ⟨pic, hmem, hbase, hext⟩ := lastAccepted_mem accept name listing img hla
      injection hl with hl
      exact ⟨pic, img, hmem, hbase, hext, hl.symm⟩

/-- C8 witness: the concrete two-file scenario extracted from the claim
theorem. -/
theorem c8_witness :
    load_all_gfx [("foo.png", ⟨false, 0⟩), ("bar.png", ⟨true, 1⟩)] (255, 0, 255) [".png"] =
      [("foo", LoadedImg.colorkeyConverted ⟨false, 0⟩ (255, 0, 255)),
       ("bar", LoadedImg.alphaConverted ⟨true, 1⟩)] :=
  (c8_load_all_gfx_spec [("foo.png", ⟨false, 0⟩), ("bar.png", ⟨true, 1⟩)] (255, 0, 255)
    [".png"]).2.2

/-- C9: `sun_updates` never runs per-sprite update logic — the source's
bare `obj.update` attribute access lacks call parentheses and has no
effect — so the loop either returns the sun list exactly as it was, or
removes precisely the first sun whose click guards hold and passes every
other sun through entirely unchanged. -/
theorem c9_sun_updates_no_mutation (pressed0 : Bool) (l : List Sun) :
    sun_updates pressed0 l = l ∨
      ∃ pre x post, l = pre ++ x :: post ∧ sun_updates pressed0 l = pre ++ post ∧
        sunClicked pressed0 x = true ∧ ∀ o ∈ pre, sunClicked pressed0 o = false := by
  induction l with
  | nil => exact Or.inl rfl
  | cons obj rest ih =>
    by_cases hc : sunClicked pressed0 obj = true
    · have hparts : (obj.collide && pressed0) = true ∧ (!obj.maskAt) = true ∧ pressed0 = true := by
        revert hc
        unfold sunClicked
        cases obj.collide <;> cases pressed0 <;> cases obj.maskAt <;> simp
      have hstep : sun_updates pressed0 (obj :: rest) = rest := by
        unfold sun_updates
        rw [if_pos hparts.1, if_pos hparts.2.1, if_pos hparts.2.2]
      exact Or.inr ⟨[], obj, rest, rfl, hstep, hc, by intro o ho; cases ho⟩
    · have hcf : sunClicked pressed0 obj = false := by
        cases hx : sunClicked pressed0 obj
        · rfl
        · exact absurd hx hc
      have hstep : sun_updates pressed0 (obj :: rest) = obj :: sun_updates pressed0 rest := by
        simp only [sun_updates]
        by_cases h1 : (obj.collide && pressed0) = true
        · rw [if_pos h1]
          by_cases h2 : (!obj.maskAt) = true
          · rw [if_pos h2]
            by_cases h3 : pressed0 = true
            · exact absurd (by unfold sunClicked; rw [h1, h2, h3]; rfl) hc
            · rw [if_neg h3]
          · rw [if_neg h2]
        · rw [if_neg h1]
      rcases ih with h | ⟨pre, x, post, hlq, hsq, hxq, hpreq⟩
      · exact Or.inl (by rw [hstep, h])
      · refine Or.inr ⟨obj :: pre, x, post, by rw [hlq]; rfl, by rw [hstep, hsq]; rfl, hxq, ?_⟩
        intro o ho
        cases ho with
        | head => exact hcf
        | tail _ ho2 => exact hpreq o ho2

/-- C9 witness: the theorem evaluated on a one-sun list whose sun is
clicked. -/
theorem c9_witness :
    sun_updates true [⟨true, false, 0⟩] = [⟨true, false, 0⟩] ∨
      ∃ pre x post, ([⟨true, false, 0⟩] : List Sun) = pre ++ x :: post ∧
        sun_updates true [⟨true, false, 0⟩] = pre ++ post ∧
        sunClicked true x = true ∧ ∀ o ∈ pre, sunClicked true o = false :=
  c9_sun_updates_no_mutation true [⟨true, false, 0⟩]

/-- C10: the base class declares `get_event(self,event,keys,mouse)` but
`Control.event_loop` dispatches `self.State.get_event(event)` with one
positional argument, so any state that does not override `get_event`
(its method is `_State.get_event_method`) raises a `TypeError` arity error
instead of performing the documented no-op, while the one-parameter
overrides of `Story` and `Survive` are called successfully. -/
theorem c10_base_get_event_arity_error :
    pyCall _State.get_event_method Control.event_loop_get_event_argc = PyCallResult.typeErr ∧
      pyCall Story.get_event_method Control.event_loop_get_event_argc = PyCallResult.ok ∧
      pyCall Survive.get_event_method Control.event_loop_get_event_argc = PyCallResult.ok := by
  decide
